import Mathlib

/-!
Verification of the formatrix document-conversion core.

This file gives a shallow embedding, in Lean 4, of the parts of the
formatrix repository that the checked properties are about:

* the unified document AST (`crates/formatrix-core/src/ast.rs`) together
  with its `word_count` / `char_count` structural queries;
* the conversion contract and the `FormatRegistry::convert` orchestration
  (`crates/formatrix-core/src/traits.rs`);
* the render algorithms of the six implemented format handlers
  (markdown, rst, typst, djot, orgmode, plaintext);
* the Djot event-stream fold (`formats/djot.rs`) and the comrak-tree fold
  of the markdown parser (`formats/markdown.rs`);
* the format-detection heuristic (`ffi.rs`, `formatrix_detect_format`).

Rust machine integers are modelled as `Nat`, `Vec` as `List`, `HashMap`
as association lists or functional maps, `Result` as `Except`, and the
`&mut String` output accumulators of the renderers as functions returning
the appended text.
-/

namespace Formatrix

/-- Rust `str::repeat`: `s` repeated `n` times. -/
def strRepeat (s : String) (n : Nat) : String :=
  String.join (List.replicate n s)

/-- Rust `str::contains(pat)`: substring containment, expressed as "some
suffix of `s` has `pat` as a prefix". -/
def containsStr (s pat : String) : Bool :=
  (List.range (s.data.length + 1)).any
    (fun i => pat.data.isPrefixOf (s.data.drop i))

/-- Split a character list at every separator satisfying `p`, keeping
empty pieces (the semantics of Rust `str::split`). -/
def splitCharsBy (p : Char → Bool) : List Char → List (List Char)
  | [] => [[]]
  | c :: rest =>
      let ts := splitCharsBy p rest
      if p c then [] :: ts
      else
        match ts with
        | [] => [[c]]
        | t :: tr => (c :: t) :: tr

/-- Rust `str::starts_with`. -/
def startsWithStr (s pat : String) : Bool :=
  pat.data.isPrefixOf s.data

/-- Rust `str::ends_with(c)` for a single character. -/
def endsWithChar (s : String) (c : Char) : Bool :=
  s.data.getLast? == some c

/-- Rust `str::trim`: whitespace stripped from both ends. -/
def rustTrim (s : String) : String :=
  ⟨((s.data.dropWhile Char.isWhitespace).reverse.dropWhile
      Char.isWhitespace).reverse⟩

/-- Rust `str::lines()`: split on newlines; a final trailing newline does
not produce an empty last line, and a trailing carriage return is
stripped from each line. -/
def rustLines (s : String) : List String :=
  let parts := splitCharsBy (fun c => c == '\n') s.data
  let parts := match parts.getLast? with
    | some [] => parts.dropLast
    | _ => parts
  parts.map (fun l => ⟨if l.getLast? == some '\r' then l.dropLast else l⟩)

/-- The whitespace-delimited tokens of a string (the items yielded by
Rust `str::split_whitespace`: split on whitespace, empty pieces
discarded). -/
def whitespaceTokens (s : String) : List String :=
  ((splitCharsBy Char.isWhitespace s.data).filter
    (fun t => !t.isEmpty)).map (fun t => ⟨t⟩)

/-- UTF-8 encoded size of one character (Rust `char::len_utf8`). -/
def charUtf8Size (c : Char) : Nat :=
  if c.val.toNat ≤ 0x7F then 1
  else if c.val.toNat ≤ 0x7FF then 2
  else if c.val.toNat ≤ 0xFFFF then 3
  else 4

/-- Rust `str::len()`: the UTF-8 byte length. -/
def strByteLen (s : String) : Nat :=
  (s.data.map charUtf8Size).sum

/-- Rust `s.split_whitespace().count()`. -/
def splitWhitespaceCount (s : String) : Nat :=
  (whitespaceTokens s).length

/-- `ast.rs`: the `SourceFormat` enum. -/
inductive SourceFormat where
  | PlainText
  | Markdown
  | AsciiDoc
  | Djot
  | OrgMode
  | ReStructuredText
  | Typst
deriving DecidableEq, Repr

/-- `ast.rs`: `Span` (byte offsets plus line/column); the `end` field is
renamed `stopPos` because `end` is a Lean keyword. -/
structure Span where
  startPos : Nat
  stopPos : Nat
  line : Nat
  column : Nat
deriving DecidableEq, Repr

/-- `ast.rs`: `MetaValue` (recursive metadata value). -/
inductive MetaValue where
  | string (s : String)
  | bool (b : Bool)
  | integer (i : Int)
  | float (f : Float)
  | list (l : List MetaValue)
  | map (m : List (String × MetaValue))

/-- `ast.rs`: `DocumentMeta`; the `custom` hash map is modelled as an
association list. -/
structure DocumentMeta where
  title : Option String
  authors : List String
  date : Option String
  language : Option String
  custom : List (String × MetaValue)

/-- `DocumentMeta::default()`. -/
def DocumentMeta.default : DocumentMeta :=
  ⟨none, [], none, none, []⟩

/-- `ast.rs`: `ListKind`. -/
inductive ListKind where
  | Bullet
  | Ordered
  | Task
deriving DecidableEq, Repr

/-- `ast.rs`: `ColumnAlignment`. -/
inductive ColumnAlignment where
  | Left
  | Center
  | Right
  | Default
deriving DecidableEq, Repr

/-- `ast.rs`: `ColumnSpec`; the `f64` width is modelled as `Float`. -/
structure ColumnSpec where
  alignment : ColumnAlignment
  width : Option Float

/-- `ast.rs`: `AdmonitionType`. -/
inductive AdmonitionType where
  | Note
  | Tip
  | Important
  | Warning
  | Caution
  | Danger
  | Custom
deriving DecidableEq, Repr

/-- `ast.rs`: `MathNotation`. -/
inductive MathNotation where
  | LaTeX
  | AsciiMath
  | MathML
deriving DecidableEq, Repr

/-- `ast.rs`: `LinkType`. -/
inductive LinkType where
  | Inline
  | Reference
  | AutoLink
  | WikiLink
deriving DecidableEq, Repr

/-- `ast.rs`: `QuoteType`. -/
inductive QuoteType where
  | Single
  | Double
deriving DecidableEq, Repr

mutual

/-- `ast.rs`: the `Block` enum. Field order follows the source; the
`MathBlock` notation field is given positionally. -/
inductive Block where
  | Paragraph (content : List Inline) (span : Option Span)
  | Heading (level : Nat) (content : List Inline) (id : Option String)
      (span : Option Span)
  | CodeBlock (language : Option String) (content : String)
      (line_numbers : Bool) (highlight_lines : List Nat) (span : Option Span)
  | BlockQuote (content : List Block) (attribution : Option (List Inline))
      (admonition : Option AdmonitionType) (span : Option Span)
  | List (kind : ListKind) (items : List ListItem) (start : Option Nat)
      (span : Option Span)
  | DefinitionList (items : List DefinitionItem) (span : Option Span)
  | Table (caption : Option (List Inline)) (columns : List ColumnSpec)
      (header : Option TableRow) (body : List TableRow)
      (footer : Option TableRow) (span : Option Span)
  | ThematicBreak (span : Option Span)
  | MathBlock : String → MathNotation → Option Span → Block
  | Container (id : Option String) (classes : List String)
      (attributes : List (String × String)) (content : List Block)
      (span : Option Span)
  | Figure (content : List Block) (caption : Option (List Inline))
      (id : Option String) (span : Option Span)
  | Raw (format : SourceFormat) (content : String) (span : Option Span)
  | FootnoteDefinition (label : String) (content : List Block)
      (span : Option Span)
  | TableOfContents (max_depth : Option Nat) (span : Option Span)

/-- `ast.rs`: `ListItem`. -/
inductive ListItem where
  | mk (content : List Block) (checked : Option Bool) (marker : Option String)

/-- `ast.rs`: `DefinitionItem`. -/
inductive DefinitionItem where
  | mk (term : List Inline) (definitions : List (List Block))

/-- `ast.rs`: `TableRow`. -/
inductive TableRow where
  | mk (cells : List TableCell)

/-- `ast.rs`: `TableCell`. -/
inductive TableCell where
  | mk (content : List Block) (colspan : Nat) (rowspan : Nat)
      (alignment : Option ColumnAlignment)

/-- `ast.rs`: the `Inline` enum. -/
inductive Inline where
  | Text (content : String)
  | Emphasis (content : List Inline)
  | Strong (content : List Inline)
  | Strikethrough (content : List Inline)
  | Underline (content : List Inline)
  | Superscript (content : List Inline)
  | Subscript (content : List Inline)
  | SmallCaps (content : List Inline)
  | Code (content : String) (language : Option String)
  | Math : String → MathNotation → Inline
  | Link (url : String) (title : Option String) (content : List Inline)
      (link_type : LinkType)
  | Image (url : String) (alt : String) (title : Option String)
      (width : Option String) (height : Option String)
  | FootnoteRef (label : String)
  | Citation (keys : List String) (px : Option (List Inline))
      (sx : Option (List Inline))
  | LineBreak
  | SoftBreak
  | NonBreakingSpace
  | Span (id : Option String) (classes : List String)
      (attributes : List (String × String)) (content : List Inline)
  | RawInline (format : SourceFormat) (content : String)
  | Quoted (quote_type : QuoteType) (content : List Inline)
  | Keyboard (content : String)
  | Highlight (content : List Inline)

end

/-- Content field of a `ListItem`. -/
def ListItem.content : ListItem → List Block
  | .mk c _ _ => c

/-- Checked field of a `ListItem`. -/
def ListItem.checked : ListItem → Option Bool
  | .mk _ c _ => c

/-- Cells of a `TableRow`. -/
def TableRow.cells : TableRow → List TableCell
  | .mk c => c

/-- Content of a `TableCell`. -/
def TableCell.content : TableCell → List Block
  | .mk c _ _ _ => c

/-- `ast.rs`: the root `Document` node. -/
structure Document where
  source_format : SourceFormat
  meta : DocumentMeta
  content : List Block
  raw_source : Option String

/-- `Document::new`. -/
def Document.new (format : SourceFormat) : Document :=
  ⟨format, DocumentMeta.default, [], none⟩

mutual

/-- `ast.rs`: `Inline::word_count`. -/
def Inline.word_count : Inline → Nat
  | .Text content => splitWhitespaceCount content
  | .Emphasis content => inlinesWordCount content
  | .Strong content => inlinesWordCount content
  | .Strikethrough content => inlinesWordCount content
  | .Underline content => inlinesWordCount content
  | .Highlight content => inlinesWordCount content
  | .Code content _ => splitWhitespaceCount content
  | _ => 0

/-- Sum of `Inline::word_count` over a list
(`content.iter().map(|i| i.word_count()).sum()`). -/
def inlinesWordCount : List Inline → Nat
  | [] => 0
  | i :: rest => Inline.word_count i + inlinesWordCount rest

end

mutual

/-- `ast.rs`: `Inline::char_count`. -/
def Inline.char_count : Inline → Nat
  | .Text content => content.length
  | .Emphasis content => inlinesCharCount content
  | .Strong content => inlinesCharCount content
  | .Strikethrough content => inlinesCharCount content
  | .Underline content => inlinesCharCount content
  | .Highlight content => inlinesCharCount content
  | .Code content _ => content.length
  | _ => 0

/-- Sum of `Inline::char_count` over a list. -/
def inlinesCharCount : List Inline → Nat
  | [] => 0
  | i :: rest => Inline.char_count i + inlinesCharCount rest

end

mutual

/-- `ast.rs`: `Block::word_count`. -/
def Block.word_count : Block → Nat
  | .Paragraph content _ => inlinesWordCount content
  | .Heading _ content _ _ => inlinesWordCount content
  | .CodeBlock _ content _ _ _ => splitWhitespaceCount content
  | .BlockQuote content _ _ _ => blocksWordCount content
  | .List _ items _ _ => itemsWordCount items
  | .Container _ _ _ content _ => blocksWordCount content
  | .Figure content caption _ _ =>
      blocksWordCount content +
        (match caption with
          | none => 0
          | some c => inlinesWordCount c)
  | _ => 0

/-- Sum of `Block::word_count` over a list. -/
def blocksWordCount : List Block → Nat
  | [] => 0
  | b :: rest => Block.word_count b + blocksWordCount rest

/-- Sum of `Block::word_count` over
`items.iter().flat_map(|i| &i.content)`. -/
def itemsWordCount : List ListItem → Nat
  | [] => 0
  | .mk content _ _ :: rest => blocksWordCount content + itemsWordCount rest

end

mutual

/-- `ast.rs`: `Block::char_count`. The `Figure` variant falls into the
wildcard arm of the source and therefore contributes zero. -/
def Block.char_count : Block → Nat
  | .Paragraph content _ => inlinesCharCount content
  | .Heading _ content _ _ => inlinesCharCount content
  | .CodeBlock _ content _ _ _ => content.length
  | .BlockQuote content _ _ _ => blocksCharCount content
  | .List _ items _ _ => itemsCharCount items
  | .Container _ _ _ content _ => blocksCharCount content
  | _ => 0

/-- Sum of `Block::char_count` over a list. -/
def blocksCharCount : List Block → Nat
  | [] => 0
  | b :: rest => Block.char_count b + blocksCharCount rest

/-- Sum of `Block::char_count` over
`items.iter().flat_map(|i| &i.content)`. -/
def itemsCharCount : List ListItem → Nat
  | [] => 0
  | .mk content _ _ :: rest => blocksCharCount content + itemsCharCount rest

end

/-- `ast.rs`: `Document::word_count`. -/
def Document.word_count (d : Document) : Nat :=
  blocksWordCount d.content

/-- `ast.rs`: `Document::char_count`. -/
def Document.char_count (d : Document) : Nat :=
  blocksCharCount d.content

/-- `traits.rs`: the shared `ConversionError` taxonomy. The wrapped
`std::io::Error` payload is modelled as its message string. -/
inductive ConversionError where
  | ParseError (line : Nat) (column : Nat) (message : String)
  | UnsupportedFeature (format : SourceFormat) (feature : String)
  | IoError (message : String)
  | SerializationError (message : String)
deriving DecidableEq, Repr

/-- `traits.rs`: `ParseConfig`; the options hash map is an association
list. -/
structure ParseConfig where
  preserve_spans : Bool
  preserve_raw_source : Bool
  front_matter_delimiter : Option String
  format_options : List (String × String)

/-- `ParseConfig::default()` (all-false / empty). -/
def ParseConfig.default : ParseConfig :=
  ⟨false, false, none, []⟩

/-- `traits.rs`: `RenderConfig`. -/
structure RenderConfig where
  line_width : Nat
  indent : String
  hard_breaks : Bool
  format_options : List (String × String)

/-- `RenderConfig::default()`. -/
def RenderConfig.default : RenderConfig :=
  ⟨80, "  ", false, []⟩

/-- `traits.rs`: a `FormatHandler` trait object: its declared format, its
`Parser::parse` implementation and its `Renderer::render` implementation.
The feature-introspection methods are not needed by `convert` and are
omitted. -/
structure FormatHandler where
  format : SourceFormat
  parse : String → ParseConfig → Except ConversionError Document
  render : Document → RenderConfig → Except ConversionError String

/-- `traits.rs`: `FormatRegistry`; the `HashMap<SourceFormat, Box<dyn
FormatHandler>>` is modelled as a functional map (its `get`). -/
structure FormatRegistry where
  get : SourceFormat → Option FormatHandler

/-- `traits.rs`: `FormatRegistry::convert`, line for line: identity fast
path when the formats are equal, then resolution of the two handlers
(missing handler gives `UnsupportedFeature` for `"parsing"` resp.
`"rendering"`), then `parse` with the source handler (its error
propagated by `?`), then `render` with the target handler. -/
def FormatRegistry.convert (reg : FormatRegistry) (input : String)
    (fromFmt toFmt : SourceFormat) (parse_config : ParseConfig)
    (render_config : RenderConfig) : Except ConversionError String :=
  if fromFmt = toFmt then
    .ok input
  else
    match reg.get fromFmt with
    | none => .error (.UnsupportedFeature fromFmt "parsing")
    | some from_handler =>
      match reg.get toFmt with
      | none => .error (.UnsupportedFeature toFmt "rendering")
      | some to_handler =>
        match from_handler.parse input parse_config with
        | .error e => .error e
        | .ok doc => to_handler.render doc render_config

/-- `ffi.rs`: `formatrix_detect_format`, on the happy path where the C
string is non-null and valid UTF-8 (the claim is about classifying raw
text). The result is given as a `SourceFormat`; the C wrapper converts it
one-to-one into the `repr(C)` `FfiFormat`. -/
def formatrix_detect_format (content : String) : SourceFormat :=
  let trimmed := rustTrim content
  if startsWithStr trimmed "#+" || containsStr trimmed "\n#+" then
    .OrgMode
  else if startsWithStr trimmed "= " || startsWithStr trimmed ":toc:" then
    .AsciiDoc
  else if startsWithStr trimmed "# " || containsStr trimmed "```" then
    .Markdown
  else if containsStr trimmed "\x7b." || containsStr trimmed "[^" then
    .Djot
  else if containsStr trimmed ".. " && containsStr trimmed "::" then
    .ReStructuredText
  else if containsStr trimmed "#let" || containsStr trimmed "#\x7b" then
    .Typst
  else
    .PlainText

/-- The detection heuristic as the spec states it: an ordered rule table,
first match wins, defaulting to plain text. Each rule pairs a marker
predicate with the format it classifies. -/
def specDetectRules : List ((String → Bool) × SourceFormat) :=
  [ (fun t => startsWithStr t "#+" || containsStr t "\n#+", .OrgMode),
    (fun t => startsWithStr t "= " || startsWithStr t ":toc:", .AsciiDoc),
    (fun t => startsWithStr t "# " || containsStr t "```", .Markdown),
    (fun t => containsStr t "\x7b." || containsStr t "[^", .Djot),
    (fun t => containsStr t ".. " && containsStr t "::", .ReStructuredText),
    (fun t => containsStr t "#let" || containsStr t "#\x7b", .Typst) ]

/-- First rule of `specDetectRules` matching the trimmed text wins;
default plain text. -/
def specDetectFormat (content : String) : SourceFormat :=
  (specDetectRules.findSome? fun r =>
    if r.1 (rustTrim content) then some r.2 else none).getD .PlainText

/-- Render every line of `content` (Rust `content.lines()`) with the
given prefix, each followed by a newline. -/
def indentedLines (pre : String) (content : String) : String :=
  String.join ((rustLines content).map (fun l => pre ++ l ++ "\n"))

mutual

/-- `formats/markdown.rs`: `render_block`. The `&mut String` output is
modelled by returning the text the Rust code appends. -/
def mdRenderBlock (block : Block) (indent : Nat) : String :=
  let pre := strRepeat "  " indent
  match block with
  | .Paragraph content _ => pre ++ mdRenderInlines content
  | .Heading level content _ _ =>
      pre ++ strRepeat "#" level ++ " " ++ mdRenderInlines content
  | .CodeBlock language content _ _ _ =>
      pre ++ "```" ++ (match language with | some lang => lang | none => "")
        ++ "\n" ++ indentedLines pre content ++ pre ++ "```"
  | .BlockQuote content _ _ _ => mdRenderQuote content pre
  | .List kind items _ _ => mdRenderItems kind items 0 pre
  | .ThematicBreak _ => pre ++ "---"
  | .Table _ _ header body _ _ =>
      (match header with
        | some (.mk cells) =>
            pre ++ "|" ++ mdRenderCells cells ++ "\n"
              ++ pre ++ "|" ++ String.join (cells.map (fun _ => " --- |"))
              ++ "\n"
        | none => "")
        ++ mdRenderRows body pre
  | .Raw _ content _ => content
  | .FootnoteDefinition label content _ =>
      pre ++ "[^" ++ label ++ "]: " ++ mdRenderBlocks content (indent + 1)
  | _ => ""

/-- `for block in content { render_block(output, block, indent) }`. -/
def mdRenderBlocks (blocks : List Block) (indent : Nat) : String :=
  match blocks with
  | [] => ""
  | b :: rest => mdRenderBlock b indent ++ mdRenderBlocks rest indent

/-- The markdown `Block::BlockQuote` loop: each child on its own
"> "-prefixed line, rendered at indent 0. -/
def mdRenderQuote (blocks : List Block) (pre : String) : String :=
  match blocks with
  | [] => ""
  | b :: rest => pre ++ "> " ++ mdRenderBlock b 0 ++ "\n"
      ++ mdRenderQuote rest pre

/-- The markdown `Block::List` loop with running item index `i`:
bullet / `{i+1}. ` / checkbox marker, then the item's blocks at indent 0,
then a newline. -/
def mdRenderItems (kind : ListKind) (items : List ListItem) (i : Nat)
    (pre : String) : String :=
  match items with
  | [] => ""
  | .mk content checked _ :: rest =>
      pre
        ++ (match kind with
            | .Bullet => "- "
            | .Ordered => toString (i + 1) ++ ". "
            | .Task => if checked.getD false then "- [x] " else "- [ ] ")
        ++ mdRenderBlocks content 0 ++ "\n"
        ++ mdRenderItems kind rest (i + 1) pre

/-- The markdown table cell loop of one row. -/
def mdRenderCells (cells : List TableCell) : String :=
  match cells with
  | [] => ""
  | .mk content _ _ _ :: rest =>
      " " ++ mdRenderBlocks content 0 ++ " |" ++ mdRenderCells rest

/-- The markdown table body-row loop. -/
def mdRenderRows (rows : List TableRow) (pre : String) : String :=
  match rows with
  | [] => ""
  | .mk cells :: rest =>
      pre ++ "|" ++ mdRenderCells cells ++ "\n" ++ mdRenderRows rest pre

/-- `formats/markdown.rs`: `render_inline`. -/
def mdRenderInline (inline : Inline) : String :=
  match inline with
  | .Text content => content
  | .Emphasis content => "*" ++ mdRenderInlines content ++ "*"
  | .Strong content => "**" ++ mdRenderInlines content ++ "**"
  | .Strikethrough content => "~~" ++ mdRenderInlines content ++ "~~"
  | .Code content _ => "`" ++ content ++ "`"
  | .Link url title content _ =>
      "[" ++ mdRenderInlines content ++ "](" ++ url
        ++ (match title with
            | some t => " \"" ++ t ++ "\""
            | none => "")
        ++ ")"
  | .Image url alt title _ _ =>
      "![" ++ alt ++ "](" ++ url
        ++ (match title with
            | some t => " \"" ++ t ++ "\""
            | none => "")
        ++ ")"
  | .FootnoteRef label => "[^" ++ label ++ "]"
  | .LineBreak => "  \n"
  | .SoftBreak => "\n"
  | .RawInline _ content => content
  | _ => ""

/-- `for inline in content { render_inline(output, inline) }`. -/
def mdRenderInlines (inlines : List Inline) : String :=
  match inlines with
  | [] => ""
  | i :: rest => mdRenderInline i ++ mdRenderInlines rest

end

/-- `formats/markdown.rs`: `MarkdownHandler`'s `Renderer::render`: the
blocks joined by blank lines, always `Ok`. -/
def mdRender (doc : Document) (_config : RenderConfig) :
    Except ConversionError String :=
  .ok (String.intercalate "\n\n" (doc.content.map (fun b => mdRenderBlock b 0)))

mutual

/-- `formats/rst.rs`: `inline_text_len` (Rust `String::len`, i.e. UTF-8
byte length, summed through emphasis and strong). -/
def rstInlineTextLen : Inline → Nat
  | .Text content => strByteLen content
  | .Emphasis content => rstInlinesTextLen content
  | .Strong content => rstInlinesTextLen content
  | .Code content _ => strByteLen content
  | _ => 0

/-- Sum of `rstInlineTextLen` over a list. -/
def rstInlinesTextLen : List Inline → Nat
  | [] => 0
  | i :: rest => rstInlineTextLen i + rstInlinesTextLen rest

end

/-- `formats/rst.rs`: the admonition directive name table. -/
def rstDirective : AdmonitionType → String
  | .Note => "note"
  | .Tip => "tip"
  | .Warning => "warning"
  | .Caution => "caution"
  | .Important => "important"
  | .Danger => "danger"
  | .Custom => "admonition"

mutual

/-- `formats/rst.rs`: `render_block` (its depth argument is unused in the
source and omitted here). -/
def rstRenderBlock (block : Block) : String :=
  match block with
  | .Paragraph content _ => rstRenderInlines content
  | .Heading level content _ _ =>
      let underline : Char :=
        match level with
        | 1 => '='
        | 2 => '-'
        | 3 => '~'
        | 4 => '^'
        | _ => '\''
      rstRenderInlines content ++ "\n"
        ++ strRepeat (String.singleton underline)
            (max (rstInlinesTextLen content) 1)
  | .CodeBlock language content _ _ _ =>
      (match language with
        | some lang => ".. code-block:: " ++ lang ++ "\n\n"
        | none => "::\n\n")
        ++ indentedLines "   " content
  | .BlockQuote content _ admonition _ =>
      (match admonition with
        | some admon => ".. " ++ rstDirective admon ++ "::\n\n"
        | none => "")
        ++ rstRenderQuoteBlocks content
  | .List kind items _ _ => rstRenderItems kind items 0
  | .ThematicBreak _ => "----"
  | .MathBlock content _ _ => ".. math::\n\n" ++ indentedLines "   " content
  | _ => ""

/-- The rst blockquote body loop: each child indented by three spaces and
followed by a newline (identical with and without a directive). -/
def rstRenderQuoteBlocks (blocks : List Block) : String :=
  match blocks with
  | [] => ""
  | b :: rest => "   " ++ rstRenderBlock b ++ "\n" ++ rstRenderQuoteBlocks rest

/-- The rst `Block::List` loop with running item index `i`. -/
def rstRenderItems (kind : ListKind) (items : List ListItem) (i : Nat) :
    String :=
  match items with
  | [] => ""
  | .mk content checked _ :: rest =>
      (match kind with
        | .Bullet => "* "
        | .Ordered => toString (i + 1) ++ ". "
        | .Task => if checked.getD false then "[x] " else "[ ] ")
        ++ rstRenderItemBlocks content true ++ "\n"
        ++ rstRenderItems kind rest (i + 1)

/-- The rst list-item body loop: blocks after the first are separated by
a newline plus three spaces. -/
def rstRenderItemBlocks (blocks : List Block) (first : Bool) : String :=
  match blocks with
  | [] => ""
  | b :: rest =>
      (if first then "" else "\n   ") ++ rstRenderBlock b
        ++ rstRenderItemBlocks rest false

/-- `formats/rst.rs`: `render_inline`. -/
def rstRenderInline (inline : Inline) : String :=
  match inline with
  | .Text content => content
  | .Emphasis content => "*" ++ rstRenderInlines content ++ "*"
  | .Strong content => "**" ++ rstRenderInlines content ++ "**"
  | .Code content _ => "``" ++ content ++ "``"
  | .Link url _ content _ =>
      "`" ++ rstRenderInlines content ++ " <" ++ url ++ ">`_"
  | .Image url alt _ _ _ => ".. image:: " ++ url ++ "\n   :alt: " ++ alt
  | .Math content _ => ":math:`" ++ content ++ "`"
  | .Superscript content => ":sup:`" ++ rstRenderInlines content ++ "`"
  | .Subscript content => ":sub:`" ++ rstRenderInlines content ++ "`"
  | .LineBreak => "\n"
  | .SoftBreak => " "
  | _ => ""

/-- Sequential rst inline rendering. -/
def rstRenderInlines (inlines : List Inline) : String :=
  match inlines with
  | [] => ""
  | i :: rest => rstRenderInline i ++ rstRenderInlines rest

end

/-- `formats/rst.rs`: `RstHandler`'s `Renderer::render`. -/
def rstRender (doc : Document) (_config : RenderConfig) :
    Except ConversionError String :=
  .ok (String.intercalate "\n\n" (doc.content.map rstRenderBlock))

mutual

/-- `formats/typst.rs`: `render_block`. -/
def typRenderBlock (block : Block) : String :=
  match block with
  | .Paragraph content _ => typRenderInlines content
  | .Heading level content _ _ =>
      strRepeat "=" level ++ " " ++ typRenderInlines content
  | .CodeBlock language content _ _ _ =>
      "```" ++ (match language with | some lang => lang | none => "")
        ++ "\n" ++ content
        ++ (if endsWithChar content '\n' then "" else "\n") ++ "```"
  | .BlockQuote content _ _ _ =>
      "#quote[\n" ++ typRenderQuoteBlocks content ++ "]"
  | .List kind items _ _ => typRenderItems kind items 0
  | .ThematicBreak _ => "#line(length: 100%)"
  | .MathBlock content _ _ => "$ " ++ content ++ " $"
  | .Raw _ content _ => "#raw[" ++ content ++ "]"
  | .Table caption _ header body _ _ =>
      "#table(\n"
        ++ (match header with
            | some (.mk cells) => typRenderHeaderCells cells
            | none => "")
        ++ typRenderRows body ++ ")"
        ++ (match caption with
            | some cap => "\n#figure.caption[" ++ typRenderInlines cap ++ "]"
            | none => "")
  | _ => ""

/-- The typst blockquote body loop. -/
def typRenderQuoteBlocks (blocks : List Block) : String :=
  match blocks with
  | [] => ""
  | b :: rest => "  " ++ typRenderBlock b ++ "\n" ++ typRenderQuoteBlocks rest

/-- The typst `Block::List` loop with running item index `i`. -/
def typRenderItems (kind : ListKind) (items : List ListItem) (i : Nat) :
    String :=
  match items with
  | [] => ""
  | .mk content checked _ :: rest =>
      (match kind with
        | .Bullet => "- "
        | .Ordered => toString (i + 1) ++ ". "
        | .Task => if checked.getD false then "- [x] " else "- [ ] ")
        ++ typRenderItemBlocks content ++ "\n"
        ++ typRenderItems kind rest (i + 1)

/-- Sequential rendering of a typst list item's blocks. -/
def typRenderItemBlocks (blocks : List Block) : String :=
  match blocks with
  | [] => ""
  | b :: rest => typRenderBlock b ++ typRenderItemBlocks rest

/-- The typst table-header cell loop. -/
def typRenderHeaderCells (cells : List TableCell) : String :=
  match cells with
  | [] => ""
  | .mk content _ _ _ :: rest =>
      "  table.header[" ++ typRenderItemBlocks content ++ "],\n"
        ++ typRenderHeaderCells rest

/-- The typst body rows loop (each cell of each row). -/
def typRenderRows (rows : List TableRow) : String :=
  match rows with
  | [] => ""
  | .mk cells :: rest => typRenderBodyCells cells ++ typRenderRows rest

/-- The typst body-row cell loop. -/
def typRenderBodyCells (cells : List TableCell) : String :=
  match cells with
  | [] => ""
  | .mk content _ _ _ :: rest =>
      "  [" ++ typRenderItemBlocks content ++ "],\n"
        ++ typRenderBodyCells rest

/-- `formats/typst.rs`: `render_inline`. -/
def typRenderInline (inline : Inline) : String :=
  match inline with
  | .Text content => content
  | .Emphasis content => "_" ++ typRenderInlines content ++ "_"
  | .Strong content => "*" ++ typRenderInlines content ++ "*"
  | .Strikethrough content => "#strike[" ++ typRenderInlines content ++ "]"
  | .Code content _ => "`" ++ content ++ "`"
  | .Link url _ content _ =>
      "#link(\"" ++ url ++ "\")[" ++ typRenderInlines content ++ "]"
  | .Image url alt _ _ _ =>
      "#image(\"" ++ url ++ "\", alt: \"" ++ alt ++ "\")"
  | .Math content nt =>
      (match nt with
        | .LaTeX => "$" ++ content ++ "$"
        | .AsciiMath => "$" ++ content ++ "$"
        | .MathML => "#raw[" ++ content ++ "]")
  | .LineBreak => "\\ \n"
  | .SoftBreak => " "
  | _ => ""

/-- Sequential typst inline rendering. -/
def typRenderInlines (inlines : List Inline) : String :=
  match inlines with
  | [] => ""
  | i :: rest => typRenderInline i ++ typRenderInlines rest

end

/-- `formats/typst.rs`: `TypstHandler`'s `Renderer::render`. -/
def typRender (doc : Document) (_config : RenderConfig) :
    Except ConversionError String :=
  .ok (String.intercalate "\n\n" (doc.content.map typRenderBlock))

/-- `formats/djot.rs`: the admonition class names used when rendering
(`Custom` degrades to `note`). -/
def djAdmonitionName : AdmonitionType → String
  | .Note => "note"
  | .Tip => "tip"
  | .Warning => "warning"
  | .Caution => "caution"
  | .Important => "important"
  | .Danger => "danger"
  | .Custom => "note"

mutual

/-- `formats/djot.rs`: `render_block`. -/
def djRenderBlock (block : Block) (indent : Nat) : String :=
  let pre := strRepeat " " indent
  match block with
  | .Paragraph content _ => pre ++ djRenderInlines content
  | .Heading level content id _ =>
      pre ++ strRepeat "#" level ++ " " ++ djRenderInlines content
        ++ (match id with
            | some i => " \x7b#" ++ i ++ "\x7d"
            | none => "")
  | .CodeBlock language content _ _ _ =>
      pre ++ "```" ++ (match language with | some lang => lang | none => "")
        ++ "\n" ++ indentedLines pre content ++ pre ++ "```"
  | .BlockQuote content _ admonition _ =>
      (match admonition with
        | some admon =>
            pre ++ "::: " ++ djAdmonitionName admon ++ "\n"
              ++ djRenderAdmonitionBlocks content indent ++ pre ++ ":::"
        | none => djRenderQuote content pre)
  | .List kind items start _ => djRenderItems kind items start 0 pre
  | .ThematicBreak _ => pre ++ "***"
  | .Table _ _ header body _ _ =>
      (match header with
        | some (.mk cells) =>
            pre ++ "|" ++ djRenderCells cells ++ "\n"
              ++ pre ++ "|" ++ String.join (cells.map (fun _ => " --- |"))
              ++ "\n"
        | none => "")
        ++ djRenderRows body pre
  | .FootnoteDefinition label content _ =>
      pre ++ "[^" ++ label ++ "]: " ++ djRenderBlocks content (indent + 2)
  | .Raw _ content _ => pre ++ "```\n" ++ content ++ "\n```"
  | _ => ""

/-- Sequential djot block rendering at a fixed indent. -/
def djRenderBlocks (blocks : List Block) (indent : Nat) : String :=
  match blocks with
  | [] => ""
  | b :: rest => djRenderBlock b indent ++ djRenderBlocks rest indent

/-- The djot admonition body loop: each child rendered at the same indent
and followed by a newline. -/
def djRenderAdmonitionBlocks (blocks : List Block) (indent : Nat) : String :=
  match blocks with
  | [] => ""
  | b :: rest => djRenderBlock b indent ++ "\n"
      ++ djRenderAdmonitionBlocks rest indent

/-- The djot plain blockquote loop. -/
def djRenderQuote (blocks : List Block) (pre : String) : String :=
  match blocks with
  | [] => ""
  | b :: rest => pre ++ "> " ++ djRenderBlock b 0 ++ "\n"
      ++ djRenderQuote rest pre

/-- The djot `Block::List` loop: ordered labels count from
`start.unwrap_or(1)` plus the item index. -/
def djRenderItems (kind : ListKind) (items : List ListItem)
    (start : Option Nat) (i : Nat) (pre : String) : String :=
  match items with
  | [] => ""
  | .mk content checked _ :: rest =>
      pre
        ++ (match kind with
            | .Bullet => "- "
            | .Ordered => toString (start.getD 1 + i) ++ ". "
            | .Task => if checked.getD false then "- [x] " else "- [ ] ")
        ++ djRenderBlocks content 0 ++ "\n"
        ++ djRenderItems kind rest start (i + 1) pre

/-- The djot table cell loop of one row. -/
def djRenderCells (cells : List TableCell) : String :=
  match cells with
  | [] => ""
  | .mk content _ _ _ :: rest =>
      " " ++ djRenderBlocks content 0 ++ " |" ++ djRenderCells rest

/-- The djot table body-row loop. -/
def djRenderRows (rows : List TableRow) (pre : String) : String :=
  match rows with
  | [] => ""
  | .mk cells :: rest =>
      pre ++ "|" ++ djRenderCells cells ++ "\n" ++ djRenderRows rest pre

/-- `formats/djot.rs`: `render_inline`. -/
def djRenderInline (inline : Inline) : String :=
  match inline with
  | .Text content => content
  | .Emphasis content => "_" ++ djRenderInlines content ++ "_"
  | .Strong content => "*" ++ djRenderInlines content ++ "*"
  | .Strikethrough content => "\x7b-" ++ djRenderInlines content ++ "-\x7d"
  | .Code content _ => "`" ++ content ++ "`"
  | .Link url title content _ =>
      "[" ++ djRenderInlines content ++ "](" ++ url
        ++ (match title with
            | some t => " \"" ++ t ++ "\""
            | none => "")
        ++ ")"
  | .Image url alt title _ _ =>
      "![" ++ alt ++ "](" ++ url
        ++ (match title with
            | some t => " \"" ++ t ++ "\""
            | none => "")
        ++ ")"
  | .FootnoteRef label => "[^" ++ label ++ "]"
  | .LineBreak => "\\\n"
  | .SoftBreak => "\n"
  | .RawInline _ content => "`" ++ content ++ "`"
  | _ => ""

/-- Sequential djot inline rendering. -/
def djRenderInlines (inlines : List Inline) : String :=
  match inlines with
  | [] => ""
  | i :: rest => djRenderInline i ++ djRenderInlines rest

end

/-- `formats/djot.rs`: `DjotHandler`'s `Renderer::render`. -/
def djRender (doc : Document) (_config : RenderConfig) :
    Except ConversionError String :=
  .ok (String.intercalate "\n\n" (doc.content.map (fun b => djRenderBlock b 0)))

mutual

/-- `formats/orgmode.rs`: `render_block`. -/
def orgRenderBlock (block : Block) : String :=
  match block with
  | .Paragraph content _ => orgRenderInlines content
  | .Heading level content _ _ =>
      strRepeat "*" level ++ " " ++ orgRenderInlines content
  | .CodeBlock language content _ _ _ =>
      "#+BEGIN_SRC"
        ++ (match language with | some lang => " " ++ lang | none => "")
        ++ "\n" ++ content
        ++ (if endsWithChar content '\n' then "" else "\n") ++ "#+END_SRC"
  | .BlockQuote content _ _ _ =>
      "#+BEGIN_QUOTE\n" ++ orgRenderQuoteBlocks content ++ "#+END_QUOTE"
  | .List kind items start _ => orgRenderItems kind items start 0
  | .ThematicBreak _ => "-----"
  | .Table _ _ header body _ _ =>
      (match header with
        | some (.mk cells) =>
            "|" ++ orgRenderCells cells ++ "\n" ++ "|---|\n"
        | none => "")
        ++ orgRenderRows body
  | .FootnoteDefinition label content _ =>
      "[fn:" ++ label ++ "] " ++ orgRenderBlocks content
  | .Raw _ content _ =>
      "#+BEGIN_EXPORT\n" ++ content ++ "\n#+END_EXPORT"
  | _ => ""

/-- Sequential org block rendering. -/
def orgRenderBlocks (blocks : List Block) : String :=
  match blocks with
  | [] => ""
  | b :: rest => orgRenderBlock b ++ orgRenderBlocks rest

/-- The org blockquote body loop: each child followed by a newline. -/
def orgRenderQuoteBlocks (blocks : List Block) : String :=
  match blocks with
  | [] => ""
  | b :: rest => orgRenderBlock b ++ "\n" ++ orgRenderQuoteBlocks rest

/-- The org `Block::List` loop: ordered labels count from
`start.unwrap_or(1)` plus the item index; org checked boxes use a capital
X. -/
def orgRenderItems (kind : ListKind) (items : List ListItem)
    (start : Option Nat) (i : Nat) : String :=
  match items with
  | [] => ""
  | .mk content checked _ :: rest =>
      (match kind with
        | .Bullet => "- "
        | .Ordered => toString (start.getD 1 + i) ++ ". "
        | .Task => if checked.getD false then "- [X] " else "- [ ] ")
        ++ orgRenderBlocks content ++ "\n"
        ++ orgRenderItems kind rest start (i + 1)

/-- The org table cell loop of one row. -/
def orgRenderCells (cells : List TableCell) : String :=
  match cells with
  | [] => ""
  | .mk content _ _ _ :: rest =>
      " " ++ orgRenderBlocks content ++ " |" ++ orgRenderCells rest

/-- The org table body-row loop. -/
def orgRenderRows (rows : List TableRow) : String :=
  match rows with
  | [] => ""
  | .mk cells :: rest =>
      "|" ++ orgRenderCells cells ++ "\n" ++ orgRenderRows rest

/-- `formats/orgmode.rs`: `render_inline`. -/
def orgRenderInline (inline : Inline) : String :=
  match inline with
  | .Text content => content
  | .Emphasis content => "/" ++ orgRenderInlines content ++ "/"
  | .Strong content => "*" ++ orgRenderInlines content ++ "*"
  | .Strikethrough content => "+" ++ orgRenderInlines content ++ "+"
  | .Code content _ => "~" ++ content ++ "~"
  | .Link url _ content _ =>
      "[[" ++ url ++ "][" ++ orgRenderInlines content ++ "]]"
  | .Image url _ _ _ _ => "[[" ++ url ++ "]]"
  | .FootnoteRef label => "[fn:" ++ label ++ "]"
  | .LineBreak => "\\\\\n"
  | .SoftBreak => "\n"
  | .RawInline _ content => content
  | _ => ""

/-- Sequential org inline rendering. -/
def orgRenderInlines (inlines : List Inline) : String :=
  match inlines with
  | [] => ""
  | i :: rest => orgRenderInline i ++ orgRenderInlines rest

end

/-- `formats/orgmode.rs`: `OrgModeHandler`'s `Renderer::render`. -/
def orgRender (doc : Document) (_config : RenderConfig) :
    Except ConversionError String :=
  .ok (String.intercalate "\n\n" (doc.content.map orgRenderBlock))

mutual

/-- `formats/plaintext.rs`: `render_block`. -/
def ptRenderBlock (block : Block) : String :=
  match block with
  | .Paragraph content _ => ptRenderInlines content
  | .Heading _ content _ _ => ptRenderInlines content
  | .CodeBlock _ content _ _ _ => content
  | .BlockQuote content _ _ _ => ptRenderBlocks content
  | .List _ items _ _ => ptRenderItems items
  | .Raw _ content _ => content
  | _ => ""

/-- Sequential plaintext block rendering. -/
def ptRenderBlocks (blocks : List Block) : String :=
  match blocks with
  | [] => ""
  | b :: rest => ptRenderBlock b ++ ptRenderBlocks rest

/-- The plaintext list loop: the items' blocks in sequence, no markers. -/
def ptRenderItems (items : List ListItem) : String :=
  match items with
  | [] => ""
  | .mk content _ _ :: rest => ptRenderBlocks content ++ ptRenderItems rest

/-- `formats/plaintext.rs`: `render_inline`. -/
def ptRenderInline (inline : Inline) : String :=
  match inline with
  | .Text content => content
  | .Emphasis content => ptRenderInlines content
  | .Strong content => ptRenderInlines content
  | .Code content _ => content
  | .Link _ _ content _ => ptRenderInlines content
  | .LineBreak => "\n"
  | .SoftBreak => " "
  | _ => ""

/-- Sequential plaintext inline rendering. -/
def ptRenderInlines (inlines : List Inline) : String :=
  match inlines with
  | [] => ""
  | i :: rest => ptRenderInline i ++ ptRenderInlines rest

end

/-- `formats/plaintext.rs`: `PlainTextHandler`'s `Renderer::render`. -/
def ptRender (doc : Document) (_config : RenderConfig) :
    Except ConversionError String :=
  .ok (String.intercalate "\n\n" (doc.content.map ptRenderBlock))

/-- The `jotdown::ListKind` alternatives; their payloads (tightness,
numbering style, start number) are discarded by the djot adapter's
patterns and omitted here. -/
inductive DjotListKind where
  | Unordered
  | Ordered
  | Task
deriving DecidableEq, Repr

/-- The `jotdown::Container` alternatives the djot adapter's
`container_to_block` distinguishes. `Other` stands for every further
jotdown container, all of which fall into the wildcard arm. -/
inductive DjotContainer where
  | Paragraph
  | Heading (level : Nat)
  | CodeBlock (language : String)
  | Blockquote
  | List (kind : DjotListKind)
  | ListItem
  | TaskListItem (checked : Bool)
  | Table
  | TableRow
  | TableCell
  | Caption
  | Div (cls : String)
  | Emphasis
  | Strong
  | Link (url : String)
  | Image (url : String)
  | Footnote (label : String)
  | RawBlock (format : String)
  | Section (id : String)
  | Other

/-- The `jotdown::Event` alternatives `parse_events` distinguishes; the
attribute payloads of `Start` and `ThematicBreak` are ignored by the fold
and omitted. `Other` stands for every further event, all of which fall
into the wildcard arm. -/
inductive DjotEvent where
  | Start (container : DjotContainer)
  | End (container : DjotContainer)
  | Str (text : String)
  | Softbreak
  | Hardbreak
  | NonBreakingSpace
  | Escape
  | Blankline
  | ThematicBreak
  | Other

/-- Join of the `Inline::Text` contents of a list (the
`filter_map(...Text...).join("")` idiom of the djot adapter). -/
def textContents (inlines : List Inline) : String :=
  String.join (inlines.filterMap fun i =>
    match i with
    | .Text content => some content
    | _ => none)

/-- The single-cell header row the djot `Container::Table` arm builds
from a collected `Raw` block's content. -/
def djTableRawHeaderRow (content : String) : TableRow :=
  .mk [.mk [.Paragraph [.Text content] none] 1 1 none]

/-- The djot `Container::Table` arm's loop over the collected child
blocks: the first `Raw` child (if any) becomes the header; nothing is
ever pushed to the body. -/
def djTableHeaderLoop : List Block → Option TableRow → Option TableRow
  | [], header => header
  | b :: rest, header =>
      match b with
      | .Raw _ content _ =>
          djTableHeaderLoop rest
            (if header.isNone then some (djTableRawHeaderRow content)
             else header)
      | _ => djTableHeaderLoop rest header

/-- `formats/djot.rs`: the `Div` class to admonition mapping. -/
def djDivAdmonition (cls : String) : Option AdmonitionType :=
  if cls = "note" then some .Note
  else if cls = "tip" then some .Tip
  else if cls = "warning" then some .Warning
  else if cls = "caution" then some .Caution
  else if cls = "important" then some .Important
  else none

/-- `formats/djot.rs`: `container_to_block`. -/
def djContainerToBlock (container : DjotContainer)
    (child_blocks : List Block) (inlines : List Inline) : Option Block :=
  match container with
  | .Paragraph => some (.Paragraph inlines none)
  | .Heading level => some (.Heading level inlines none none)
  | .CodeBlock language =>
      some (.CodeBlock (if language = "" then none else some language)
        (textContents inlines) false [] none)
  | .Blockquote =>
      some (.BlockQuote
        (match child_blocks with
          | [] => [.Paragraph inlines none]
          | _ => child_blocks)
        none none none)
  | .List kind =>
      let list_kind : ListKind :=
        match kind with
        | .Unordered => .Bullet
        | .Ordered => .Ordered
        | .Task => .Task
      some (.List list_kind
        (child_blocks.map fun block => ListItem.mk [block] none none)
        none none)
  | .ListItem =>
      (match child_blocks with
        | b :: _ => some b
        | [] =>
          match inlines with
          | [] => none
          | _ => some (.Paragraph inlines none))
  | .TaskListItem _ =>
      some (match child_blocks with
        | b :: _ => b
        | [] => .Paragraph inlines none)
  | .Table =>
      some (.Table none [] (djTableHeaderLoop child_blocks none) [] none none)
  | .Div cls =>
      (match djDivAdmonition cls with
        | some a => some (.BlockQuote child_blocks none (some a) none)
        | none => child_blocks.head?)
  | .Emphasis => none
  | .Strong => none
  | .Link _ => none
  | .Image _ => none
  | .Footnote label => some (.FootnoteDefinition label child_blocks none)
  | .RawBlock _ => some (.Raw .Djot (textContents inlines) none)
  | .Section _ => none
  | _ => none

/-- `formats/djot.rs`: the body of `parse_events`: a fold over the event
stream maintaining the root block list and the explicit frame stack
(container, accumulated child blocks, accumulated inlines); the stack's
head is its top. -/
def djParseLoop : List DjotEvent → List Block →
    List (DjotContainer × List Block × List Inline) → List Block
  | [], blocks, _ => blocks
  | ev :: rest, blocks, stack =>
    match ev with
    | .Start c => djParseLoop rest blocks ((c, [], []) :: stack)
    | .End c =>
      (match stack with
        | [] => djParseLoop rest blocks []
        | (_, child_blocks, inlines) :: stackRest =>
          match c with
          | .Section _ =>
            (match stackRest with
              | (pc, pb, pil) :: more =>
                  djParseLoop rest blocks ((pc, pb ++ child_blocks, pil) :: more)
              | [] => djParseLoop rest (blocks ++ child_blocks) [])
          | _ =>
            match djContainerToBlock c child_blocks inlines with
            | some b =>
              (match stackRest with
                | (pc, pb, pil) :: more =>
                    djParseLoop rest blocks ((pc, pb ++ [b], pil) :: more)
                | [] => djParseLoop rest (blocks ++ [b]) [])
            | none => djParseLoop rest blocks stackRest)
    | .Str text =>
      (match stack with
        | (c, bs, il) :: more =>
            djParseLoop rest blocks ((c, bs, il ++ [.Text text]) :: more)
        | [] => djParseLoop rest blocks [])
    | .Softbreak =>
      (match stack with
        | (c, bs, il) :: more =>
            djParseLoop rest blocks ((c, bs, il ++ [.SoftBreak]) :: more)
        | [] => djParseLoop rest blocks [])
    | .Hardbreak =>
      (match stack with
        | (c, bs, il) :: more =>
            djParseLoop rest blocks ((c, bs, il ++ [.LineBreak]) :: more)
        | [] => djParseLoop rest blocks [])
    | .NonBreakingSpace =>
      (match stack with
        | (c, bs, il) :: more =>
            djParseLoop rest blocks ((c, bs, il ++ [.Text " "]) :: more)
        | [] => djParseLoop rest blocks [])
    | .Escape => djParseLoop rest blocks stack
    | .Blankline => djParseLoop rest blocks stack
    | .ThematicBreak =>
      (match stack with
        | (c, bs, il) :: more =>
            djParseLoop rest blocks ((c, bs ++ [.ThematicBreak none], il) :: more)
        | [] => djParseLoop rest (blocks ++ [.ThematicBreak none]) [])
    | .Other => djParseLoop rest blocks stack

/-- `formats/djot.rs`: `parse_events` applied to the event stream the
external jotdown parser yields for the input. -/
def djParseEvents (events : List DjotEvent) : List Block :=
  djParseLoop events [] []

/-- The comrak `NodeValue` alternatives the markdown adapter's
`parse_node` / `parse_inline` distinguish; unused payloads are omitted,
and `Other` stands for every further node value (the wildcard arms). -/
inductive MdNodeValue where
  | Document
  | Paragraph
  | Heading (level : Nat)
  | CodeBlock (info : String) (literal : String)
  | BlockQuote
  | List (ordered : Bool) (start : Nat)
  | Item
  | TaskItem (symbol : Option Char)
  | ThematicBreak
  | Table
  | TableRow (is_header : Bool)
  | FootnoteDefinition (name : String)
  | HtmlBlock (literal : String)
  | Text (text : String)
  | SoftBreak
  | LineBreak
  | Code (literal : String)
  | Emph
  | Strong
  | Strikethrough
  | Link (url : String) (title : String)
  | Image (url : String) (title : String)
  | FootnoteReference (name : String)
  | HtmlInline (html : String)
  | Other

/-- A comrak AST node: a node value plus its child nodes. -/
inductive MdNode where
  | mk (value : MdNodeValue) (children : List MdNode)

/-- `NodeValue` of a comrak node. -/
def MdNode.value : MdNode → MdNodeValue
  | .mk v _ => v

/-- Children of a comrak node. -/
def MdNode.children : MdNode → List MdNode
  | .mk _ c => c

/-- Whether a comrak node is a `TaskItem` (the task-list detection of the
markdown adapter's `List` arm). -/
def mdIsTaskItem (n : MdNode) : Bool :=
  match n with
  | .mk (.TaskItem _) _ => true
  | _ => false

/-- Join of the `Text` children of a comrak node (the alt-text
extraction of the markdown adapter's `Image` arm). -/
def mdTextChildren (children : List MdNode) : String :=
  String.join (children.filterMap fun c =>
    match c with
    | .mk (.Text t) _ => some t
    | _ => none)

mutual

/-- `formats/markdown.rs`: `parse_node`. -/
def mdParseNode (node : MdNode) : Option Block :=
  match node with
  | .mk value children =>
    match value with
    | .Document => none
    | .Paragraph => some (.Paragraph (mdParseInlineList children) none)
    | .Heading level => some (.Heading level (mdParseInlineList children) none none)
    | .CodeBlock info literal =>
        some (.CodeBlock (if info = "" then none else some info) literal
          false [] none)
    | .BlockQuote =>
        -- `detect_admonition` always returns `None` in the source.
        some (.BlockQuote (mdParseNodes children) none none none)
    | .List ordered start =>
        let kind : ListKind :=
          if ordered then .Ordered
          else if children.any mdIsTaskItem then .Task
          else .Bullet
        some (.List kind (mdParseItems children)
          (if start > 1 then some start else none) none)
    | .Item => none
    | .TaskItem _ => none
    | .ThematicBreak => some (.ThematicBreak none)
    | .Table =>
        let hb := mdParseTableRows children none []
        some (.Table none [] hb.1 hb.2 none none)
    | .FootnoteDefinition name =>
        some (.FootnoteDefinition name (mdParseNodes children) none)
    | .HtmlBlock literal => some (.Raw .Markdown literal none)
    | _ => none

/-- `parse_children`: `children.filter_map(parse_node)`. -/
def mdParseNodes (children : List MdNode) : List Block :=
  match children with
  | [] => []
  | c :: rest =>
    match mdParseNode c with
    | some b => b :: mdParseNodes rest
    | none => mdParseNodes rest

/-- The markdown `List` arm's item loop: per child, `checked` from a
`TaskItem` symbol, content from `parse_children`. -/
def mdParseItems (children : List MdNode) : List ListItem :=
  match children with
  | [] => []
  | .mk value itemChildren :: rest =>
      let checked : Option Bool :=
        match value with
        | .TaskItem symbol => some symbol.isSome
        | _ => none
      ListItem.mk (mdParseNodes itemChildren) checked none
        :: mdParseItems rest

/-- The markdown `Table` arm's row loop: a header row overwrites the
header slot, other rows append to the body; non-row children are
skipped. -/
def mdParseTableRows (children : List MdNode) (header : Option TableRow)
    (body : List TableRow) : Option TableRow × List TableRow :=
  match children with
  | [] => (header, body)
  | .mk value rowChildren :: rest =>
    match value with
    | .TableRow is_header =>
        let row : TableRow := .mk (mdParseCells rowChildren)
        if is_header then mdParseTableRows rest (some row) body
        else mdParseTableRows rest header (body ++ [row])
    | _ => mdParseTableRows rest header body

/-- The markdown table-row cell loop: each cell's inlines wrapped in a
single paragraph. -/
def mdParseCells (cells : List MdNode) : List TableCell :=
  match cells with
  | [] => []
  | .mk _ cellChildren :: rest =>
      TableCell.mk [.Paragraph (mdParseInlineList cellChildren) none] 1 1 none
        :: mdParseCells rest

/-- `formats/markdown.rs`: `parse_inline`. -/
def mdParseInline (node : MdNode) : Option Inline :=
  match node with
  | .mk value children =>
    match value with
    | .Text text => some (.Text text)
    | .SoftBreak => some .SoftBreak
    | .LineBreak => some .LineBreak
    | .Code literal => some (.Code literal none)
    | .Emph => some (.Emphasis (mdParseInlineList children))
    | .Strong => some (.Strong (mdParseInlineList children))
    | .Strikethrough => some (.Strikethrough (mdParseInlineList children))
    | .Link url title =>
        some (.Link url (if title = "" then none else some title)
          (mdParseInlineList children) .Inline)
    | .Image url title =>
        some (.Image url (mdTextChildren children)
          (if title = "" then none else some title) none none)
    | .FootnoteReference name => some (.FootnoteRef name)
    | .HtmlInline html => some (.RawInline .Markdown html)
    | _ => none

/-- `parse_inlines`: `children.filter_map(parse_inline)`. -/
def mdParseInlineList (children : List MdNode) : List Inline :=
  match children with
  | [] => []
  | c :: rest =>
    match mdParseInline c with
    | some i => i :: mdParseInlineList rest
    | none => mdParseInlineList rest

end

/-- `formats/markdown.rs`: `MarkdownHandler::parse` given the comrak tree
the external grammar engine produced for `input`: always `Ok`, default
metadata, content from the fold over the root's children, raw source
kept only when configured. -/
def mdParse (root : MdNode) (input : String) (config : ParseConfig) :
    Except ConversionError Document :=
  .ok ⟨.Markdown, DocumentMeta.default,
    mdParseNodes (MdNode.children root),
    if config.preserve_raw_source then some input else none⟩

/-- Modelled from the spec: the comrak parse tree for the concrete
scenario input `"# Hello\n\nWorld"`. The concrete-syntax engine is an
external collaborator (spec section 6); per the spec's scenario, this
CommonMark input is a level-1 heading containing the text `Hello`
followed by a paragraph containing the text `World`. -/
def comrakHelloWorld : MdNode :=
  .mk .Document
    [.mk (.Heading 1) [.mk (.Text "Hello") []],
     .mk .Paragraph [.mk (.Text "World") []]]

/-- Concatenation of a list of strings in order. -/
def strConcat : List String → String
  | [] => ""
  | s :: rest => s ++ strConcat rest

theorem inlinesWordCount_eq (l : List Inline) :
    inlinesWordCount l = (l.map Inline.word_count).sum := by
  induction l with
  | nil => simp [inlinesWordCount]
  | cons i rest ih => simp [inlinesWordCount, ih]

theorem inlinesCharCount_eq (l : List Inline) :
    inlinesCharCount l = (l.map Inline.char_count).sum := by
  induction l with
  | nil => simp [inlinesCharCount]
  | cons i rest ih => simp [inlinesCharCount, ih]

theorem blocksWordCount_eq (l : List Block) :
    blocksWordCount l = (l.map Block.word_count).sum := by
  induction l with
  | nil => simp [blocksWordCount]
  | cons b rest ih => simp [blocksWordCount, ih]

theorem blocksCharCount_eq (l : List Block) :
    blocksCharCount l = (l.map Block.char_count).sum := by
  induction l with
  | nil => simp [blocksCharCount]
  | cons b rest ih => simp [blocksCharCount, ih]

theorem itemsWordCount_eq (items : List ListItem) :
    itemsWordCount items
      = (items.map (fun it => blocksWordCount it.content)).sum := by
  induction items with
  | nil => simp [itemsWordCount]
  | cons it rest ih =>
      cases it with
      | mk c ch m => simp [itemsWordCount, ListItem.content, ih]

theorem itemsCharCount_eq (items : List ListItem) :
    itemsCharCount items
      = (items.map (fun it => blocksCharCount it.content)).sum := by
  induction items with
  | nil => simp [itemsCharCount]
  | cons it rest ih =>
      cases it with
      | mk c ch m => simp [itemsCharCount, ListItem.content, ih]

/-- C1. For every input string, every format `F`, and every parse/render
configuration, `FormatRegistry::convert(text, F, F, pc, rc)` returns `Ok`
with the input unchanged. The statement holds for every registry
whatsoever — in particular for a registry in which no handler at all is
registered for `F`, and irrespective of what any registered handler's
`parse`/`render` would compute, so no handler is consulted on this
path. -/
theorem claim_C1_identity_convert (reg : FormatRegistry) (input : String)
    (F : SourceFormat) (pc : ParseConfig) (rc : RenderConfig) :
    reg.convert input F F pc rc = .ok input := by
  simp [FormatRegistry.convert]

/-- C4. An empty-content `Document` has `word_count = 0` and
`char_count = 0` (whatever its metadata and raw source); a `Paragraph`'s
`word_count` is the sum of its inline children's `word_count`s; a
`Text` inline's `word_count` is its whitespace-delimited token count and
its `char_count` is its number of Unicode scalar values. -/
theorem claim_C4_count_invariants :
    (∀ (f : SourceFormat) (meta : DocumentMeta) (raw : Option String),
      Document.word_count ⟨f, meta, [], raw⟩ = 0 ∧
      Document.char_count ⟨f, meta, [], raw⟩ = 0) ∧
    (∀ (inls : List Inline) (sp : Option Span),
      Block.word_count (.Paragraph inls sp)
        = (inls.map Inline.word_count).sum) ∧
    (∀ s : String,
      Inline.word_count (.Text s) = (whitespaceTokens s).length ∧
      Inline.char_count (.Text s) = s.data.length) := by
  refine ⟨fun f meta raw => ⟨?_, ?_⟩, fun inls sp => ?_, fun s => ⟨?_, ?_⟩⟩
  · simp [Document.word_count, blocksWordCount]
  · simp [Document.char_count, blocksCharCount]
  · simp [Block.word_count, inlinesWordCount_eq]
  · simp [Inline.word_count, splitWhitespaceCount]
  · simp only [Inline.char_count]
    rfl

/-- C5 counterexample. For the concrete figure with one child paragraph
`"hello world"` and caption `"cap"`: its `word_count` is 3 while the sum
of its children's `word_count`s is 2 (the caption is counted too), and
its `char_count` is 0 while the sum of its children's `char_count`s is
11 (`char_count` has no `Figure` arm). So neither count equals the sum
over the nested child blocks, contrary to the claim. -/
theorem claim_C5_counterexample :
    Block.word_count (.Figure [.Paragraph [.Text "hello world"] none]
        (some [.Text "cap"]) none none) = 3
      ∧ blocksWordCount [.Paragraph [.Text "hello world"] none] = 2
      ∧ (3 : Nat) ≠ 2
      ∧ Block.char_count (.Figure [.Paragraph [.Text "hello world"] none]
          (some [.Text "cap"]) none none) = 0
      ∧ blocksCharCount [.Paragraph [.Text "hello world"] none] = 11
      ∧ (0 : Nat) ≠ 11 := by
  refine ⟨?_, ?_, by decide, ?_, ?_, by decide⟩
  · simp only [Block.word_count, blocksWordCount, inlinesWordCount,
      Inline.word_count]
    decide
  · simp only [blocksWordCount, Block.word_count, inlinesWordCount,
      Inline.word_count]
    decide
  · simp [Block.char_count]
  · simp only [blocksCharCount, Block.char_count, inlinesCharCount,
      Inline.char_count]
    decide

/-- C5 as amended. A `Figure`'s `word_count` is the sum of its child
blocks' `word_count`s plus the `word_count` of its caption inlines (zero
when absent), while its `char_count` is 0 (`Figure` is not among the
`char_count` cases); containers, block quotes, and lists do contribute
the sum of their children to both counting queries. -/
theorem claim_C5_amended_figure_counts :
    (∀ (content : List Block) (caption : Option (List Inline))
        (id : Option String) (sp : Option Span),
      Block.word_count (.Figure content caption id sp)
        = (content.map Block.word_count).sum
          + (match caption with
              | none => 0
              | some c => (c.map Inline.word_count).sum) ∧
      Block.char_count (.Figure content caption id sp) = 0) ∧
    (∀ (content : List Block) (attr : Option (List Inline))
        (adm : Option AdmonitionType) (sp : Option Span),
      Block.word_count (.BlockQuote content attr adm sp)
        = (content.map Block.word_count).sum ∧
      Block.char_count (.BlockQuote content attr adm sp)
        = (content.map Block.char_count).sum) ∧
    (∀ (id : Option String) (classes : List String)
        (attrs : List (String × String)) (content : List Block)
        (sp : Option Span),
      Block.word_count (.Container id classes attrs content sp)
        = (content.map Block.word_count).sum ∧
      Block.char_count (.Container id classes attrs content sp)
        = (content.map Block.char_count).sum) ∧
    (∀ (kind : ListKind) (items : List ListItem) (st : Option Nat)
        (sp : Option Span),
      Block.word_count (.List kind items st sp)
        = (items.map (fun it => (it.content.map Block.word_count).sum)).sum ∧
      Block.char_count (.List kind items st sp)
        = (items.map (fun it => (it.content.map Block.char_count).sum)).sum) := by
  refine ⟨fun content caption id sp => ⟨?_, ?_⟩,
    fun content attr adm sp => ⟨?_, ?_⟩,
    fun id classes attrs content sp => ⟨?_, ?_⟩,
    fun kind items st sp => ⟨?_, ?_⟩⟩
  · cases caption <;>
      simp [Block.word_count, blocksWordCount_eq, inlinesWordCount_eq]
  · simp [Block.char_count]
  · simp [Block.word_count, blocksWordCount_eq]
  · simp [Block.char_count, blocksCharCount_eq]
  · simp [Block.word_count, blocksWordCount_eq]
  · simp [Block.char_count, blocksCharCount_eq]
  · simp [Block.word_count, itemsWordCount_eq, blocksWordCount_eq]
  · simp [Block.char_count, itemsCharCount_eq, blocksCharCount_eq]

/-- C6. For `from ≠ to`: a missing source handler gives
`UnsupportedFeature` naming `from` and `"parsing"`; otherwise a missing
target handler gives `UnsupportedFeature` naming `to` and `"rendering"`;
otherwise a parse error of the source handler is propagated unchanged;
otherwise the result is the target handler's `render` applied to the
parsed document. -/
theorem claim_C6_convert_error_paths (reg : FormatRegistry) (input : String)
    (f t : SourceFormat) (pc : ParseConfig) (rc : RenderConfig)
    (hne : f ≠ t) :
    (reg.get f = none →
      reg.convert input f t pc rc
        = .error (.UnsupportedFeature f "parsing")) ∧
    (∀ fh, reg.get f = some fh → reg.get t = none →
      reg.convert input f t pc rc
        = .error (.UnsupportedFeature t "rendering")) ∧
    (∀ fh th e, reg.get f = some fh → reg.get t = some th →
      fh.parse input pc = .error e →
      reg.convert input f t pc rc = .error e) ∧
    (∀ fh th d, reg.get f = some fh → reg.get t = some th →
      fh.parse input pc = .ok d →
      reg.convert input f t pc rc = th.render d rc) := by
  refine ⟨?_, ?_, ?_, ?_⟩ <;> intros <;>
    simp_all [FormatRegistry.convert, hne]

/-- A trivially succeeding handler used to witness the registry
claims. -/
def trivialHandler : FormatHandler :=
  ⟨.Markdown, fun _ _ => .ok (Document.new .Markdown), fun _ _ => .ok ""⟩

/-- A registry with exactly one handler, registered for markdown. -/
def soloRegistry : FormatRegistry :=
  ⟨fun f => if f = .Markdown then some trivialHandler else none⟩

/-- C6 witness: in the one-handler registry, converting from the
unregistered plain-text format reports the missing parsing side. -/
theorem claim_C6_convert_error_paths_witness :
    soloRegistry.convert "x" .PlainText .Markdown ParseConfig.default
      RenderConfig.default
      = .error (.UnsupportedFeature .PlainText "parsing") :=
  (claim_C6_convert_error_paths soloRegistry "x" .PlainText .Markdown
    ParseConfig.default RenderConfig.default (by decide)).1 rfl

/-- C7. The detection heuristic equals the spec's priority-ordered
first-match rule table (Org, AsciiDoc, Markdown, Djot, RST, Typst, then
plain text), and on the concrete scenarios it classifies
`"#+TITLE: Test\n* Heading"` as Org-mode, `"# Heading\n\nContent"` as
Markdown, and marker-free text as plain text. -/
theorem claim_C7_detect_format :
    (∀ s : String, formatrix_detect_format s = specDetectFormat s) ∧
    formatrix_detect_format "#+TITLE: Test\n* Heading" = .OrgMode ∧
    formatrix_detect_format "# Heading\n\nContent" = .Markdown ∧
    formatrix_detect_format "Just some plain prose." = .PlainText := by
  refine ⟨fun s => ?_, by decide, by decide, by decide⟩
  simp only [formatrix_detect_format, specDetectFormat, specDetectRules,
    List.findSome?]
  split_ifs <;> simp_all

theorem mdRenderItems_ordered_eq (items : List ListItem) (i : Nat)
    (pre : String) :
    mdRenderItems .Ordered items i pre
      = strConcat ((List.enumFrom i items).map fun p =>
          pre ++ (toString (p.1 + 1) ++ ". ")
            ++ mdRenderBlocks p.2.content 0 ++ "\n") := by
  induction items generalizing i with
  | nil => simp [mdRenderItems, strConcat]
  | cons it rest ih =>
      cases it with
      | mk c ch m =>
          simp [mdRenderItems, List.enumFrom, strConcat, ListItem.content, ih]

theorem rstRenderItems_ordered_eq (items : List ListItem) (i : Nat) :
    rstRenderItems .Ordered items i
      = strConcat ((List.enumFrom i items).map fun p =>
          (toString (p.1 + 1) ++ ". ")
            ++ rstRenderItemBlocks p.2.content true ++ "\n") := by
  induction items generalizing i with
  | nil => simp [rstRenderItems, strConcat]
  | cons it rest ih =>
      cases it with
      | mk c ch m =>
          simp [rstRenderItems, List.enumFrom, strConcat, ListItem.content, ih]

theorem typRenderItems_ordered_eq (items : List ListItem) (i : Nat) :
    typRenderItems .Ordered items i
      = strConcat ((List.enumFrom i items).map fun p =>
          (toString (p.1 + 1) ++ ". ")
            ++ typRenderItemBlocks p.2.content ++ "\n") := by
  induction items generalizing i with
  | nil => simp [typRenderItems, strConcat]
  | cons it rest ih =>
      cases it with
      | mk c ch m =>
          simp [typRenderItems, List.enumFrom, strConcat, ListItem.content, ih]

theorem djRenderItems_ordered_eq (items : List ListItem) (st : Option Nat)
    (i : Nat) (pre : String) :
    djRenderItems .Ordered items st i pre
      = strConcat ((List.enumFrom i items).map fun p =>
          pre ++ (toString (st.getD 1 + p.1) ++ ". ")
            ++ djRenderBlocks p.2.content 0 ++ "\n") := by
  induction items generalizing i with
  | nil => simp [djRenderItems, strConcat]
  | cons it rest ih =>
      cases it with
      | mk c ch m =>
          simp [djRenderItems, List.enumFrom, strConcat, ListItem.content, ih]

theorem orgRenderItems_ordered_eq (items : List ListItem) (st : Option Nat)
    (i : Nat) :
    orgRenderItems .Ordered items st i
      = strConcat ((List.enumFrom i items).map fun p =>
          (toString (st.getD 1 + p.1) ++ ". ")
            ++ orgRenderBlocks p.2.content ++ "\n") := by
  induction items generalizing i with
  | nil => simp [orgRenderItems, strConcat]
  | cons it rest ih =>
      cases it with
      | mk c ch m =>
          simp [orgRenderItems, List.enumFrom, strConcat, ListItem.content, ih]

/-- C2 counterexample. The markdown renderer labels the single item of an
ordered list with `start = Some 5` as `1.`, not `5.`: the claimed label
sequence `s, s+1, …` does not hold for the markdown renderer (nor, by
the same code path, for RST and Typst). -/
theorem claim_C2_counterexample :
    mdRenderBlock
        (.List .Ordered [.mk [.Paragraph [.Text "item"] none] none none]
          (some 5) none) 0
      = "1. item\n"
    ∧ ("1. item\n" : String) ≠ "5. item\n" :=
  ⟨by decide, by decide⟩

set_option maxHeartbeats 2000000 in
/-- C2 as amended. For an ordered `List` with `n` items: the Djot and Org
renderers label the items `s, s+1, …, s+n-1` where `s = start.unwrap_or(1)`
(so `1, …, n` when `start` is `None`), but the Markdown, RST and Typst
renderers always label the items `1, 2, …, n`, ignoring `start`
entirely. Each conjunct gives the renderer's full output for the list
block: per enumerated item, the (indent) prefix, the label, the item's
rendered blocks, and a newline. -/
theorem claim_C2_amended_ordered_list_labels :
    (∀ (items : List ListItem) (st : Option Nat) (sp : Option Span)
        (ind : Nat),
      mdRenderBlock (.List .Ordered items st sp) ind
        = strConcat (items.enum.map fun p =>
            strRepeat "  " ind ++ (toString (p.1 + 1) ++ ". ")
              ++ mdRenderBlocks p.2.content 0 ++ "\n")) ∧
    (∀ (items : List ListItem) (st : Option Nat) (sp : Option Span),
      rstRenderBlock (.List .Ordered items st sp)
        = strConcat (items.enum.map fun p =>
            (toString (p.1 + 1) ++ ". ")
              ++ rstRenderItemBlocks p.2.content true ++ "\n")) ∧
    (∀ (items : List ListItem) (st : Option Nat) (sp : Option Span),
      typRenderBlock (.List .Ordered items st sp)
        = strConcat (items.enum.map fun p =>
            (toString (p.1 + 1) ++ ". ")
              ++ typRenderItemBlocks p.2.content ++ "\n")) ∧
    (∀ (items : List ListItem) (st : Option Nat) (sp : Option Span)
        (ind : Nat),
      djRenderBlock (.List .Ordered items st sp) ind
        = strConcat (items.enum.map fun p =>
            strRepeat " " ind ++ (toString (st.getD 1 + p.1) ++ ". ")
              ++ djRenderBlocks p.2.content 0 ++ "\n")) ∧
    (∀ (items : List ListItem) (st : Option Nat) (sp : Option Span),
      orgRenderBlock (.List .Ordered items st sp)
        = strConcat (items.enum.map fun p =>
            (toString (st.getD 1 + p.1) ++ ". ")
              ++ orgRenderBlocks p.2.content ++ "\n")) := by
  refine ⟨fun items st sp ind => ?_, fun items st sp => ?_,
    fun items st sp => ?_, fun items st sp ind => ?_, fun items st sp => ?_⟩
  · simp only [mdRenderBlock]
    rw [mdRenderItems_ordered_eq]
    simp [List.enum]
  · simp only [rstRenderBlock]
    rw [rstRenderItems_ordered_eq]
    simp [List.enum]
  · simp only [typRenderBlock]
    rw [typRenderItems_ordered_eq]
    simp [List.enum]
  · simp only [djRenderBlock]
    rw [djRenderItems_ordered_eq]
    simp [List.enum]
  · simp only [orgRenderBlock]
    rw [orgRenderItems_ordered_eq]
    simp [List.enum]

theorem mdRenderQuote_eq (blocks : List Block) (pre : String) :
    mdRenderQuote blocks pre
      = strConcat (blocks.map fun b =>
          pre ++ "> " ++ mdRenderBlock b 0 ++ "\n") := by
  induction blocks with
  | nil => simp [mdRenderQuote, strConcat]
  | cons b rest ih => simp [mdRenderQuote, strConcat, ih]

/-- C9. Rendering a `BlockQuote` with the markdown renderer is a pure
function of the quote's children (two renders of equal inputs are the
same string): the admonition kind — and the span — have no influence on
the output, and the output is the plain `"> "`-prefixed blockquote, one
prefixed line per child block. -/
theorem claim_C9_markdown_admonition_degradation
    (content : List Block) (attr : Option (List Inline))
    (adm adm' : Option AdmonitionType) (sp sp' : Option Span) (ind : Nat) :
    mdRenderBlock (.BlockQuote content attr adm sp) ind
      = mdRenderBlock (.BlockQuote content attr adm' sp') ind ∧
    mdRenderBlock (.BlockQuote content attr adm sp) ind
      = strConcat (content.map fun b =>
          strRepeat "  " ind ++ "> " ++ mdRenderBlock b 0 ++ "\n") := by
  constructor
  · simp [mdRenderBlock]
  · simp [mdRenderBlock, mdRenderQuote_eq]

theorem djTableHeaderLoop_some (bs : List Block) (r : TableRow) :
    djTableHeaderLoop bs (some r) = some r := by
  induction bs with
  | nil => simp [djTableHeaderLoop]
  | cons b rest ih => cases b <;> simp [djTableHeaderLoop, ih]

/-- The header the djot `Container::Table` arm ends up with: the
single-cell row made from the first collected `Raw` child, if any. -/
def djFirstRawHeader (bs : List Block) : Option TableRow :=
  bs.findSome? fun b =>
    match b with
    | .Raw _ content _ => some (djTableRawHeaderRow content)
    | _ => none

theorem djTableHeaderLoop_none_eq (bs : List Block) :
    djTableHeaderLoop bs none = djFirstRawHeader bs := by
  induction bs with
  | nil => simp [djTableHeaderLoop, djFirstRawHeader]
  | cons b rest ih =>
      cases b <;>
        simp [djTableHeaderLoop, djFirstRawHeader, List.findSome?, ih,
          djTableHeaderLoop_some]

/-- C3 counterexample. Folding the jotdown event stream of a djot table
with one row and one cell (`Start Table, Start TableRow, Start TableCell,
Str "a", End TableCell, End TableRow, End Table`) produces a `Table`
whose body is empty even though one table row was collected: the
collected row is dropped, not placed in `body` as claimed. -/
theorem claim_C3_counterexample :
    djParseEvents [.Start .Table, .Start .TableRow, .Start .TableCell,
        .Str "a", .End .TableCell, .End .TableRow, .End .Table]
      = [.Table none [] none [] none none]
    ∧ ([DjotEvent.Start .Table, .Start .TableRow, .Start .TableCell,
        .Str "a", .End .TableCell, .End .TableRow, .End .Table].countP
          (fun e =>
            match e with
            | .Start .TableRow => true
            | _ => false)) = 1 :=
  ⟨rfl, by decide⟩

/-- C3 as amended. For every table the djot adapter builds, the body is
empty — collected rows are discarded, never placed in `body` — and the
header is `None` unless some collected child block is a `Raw` block, in
which case the first such `Raw` content becomes a single-cell header
row. -/
theorem claim_C3_amended_djot_table (child_blocks : List Block)
    (inlines : List Inline) :
    djContainerToBlock .Table child_blocks inlines
      = some (.Table none [] (djFirstRawHeader child_blocks) [] none none) := by
  simp [djContainerToBlock, djTableHeaderLoop_none_eq]

/-- C8. Parsing the comrak tree of `"# Hello\n\nWorld"` yields a document
with exactly the level-1 heading `Text("Hello")` followed by the
paragraph `Text("World")`, and rendering that document with the markdown
renderer gives `"# Hello\n\nWorld"`, which contains both `"# Hello"` and
`"World"`. -/
theorem claim_C8_markdown_hello_world :
    mdParse comrakHelloWorld "# Hello\n\nWorld" ParseConfig.default
      = .ok ⟨.Markdown, DocumentMeta.default,
          [.Heading 1 [.Text "Hello"] none none,
           .Paragraph [.Text "World"] none], none⟩
    ∧ mdRender ⟨.Markdown, DocumentMeta.default,
          [.Heading 1 [.Text "Hello"] none none,
           .Paragraph [.Text "World"] none], none⟩ RenderConfig.default
        = .ok "# Hello\n\nWorld"
    ∧ containsStr "# Hello\n\nWorld" "# Hello" = true
    ∧ containsStr "# Hello\n\nWorld" "World" = true :=
  ⟨rfl, rfl, by decide, by decide⟩

/-- C10. Every one of the six implemented renderers maps a document with
empty content to `Ok ""`, whatever the document's source format,
metadata, raw source, or the render configuration. -/
theorem claim_C10_empty_render (f : SourceFormat) (meta : DocumentMeta)
    (raw : Option String) (rc : RenderConfig) :
    mdRender ⟨f, meta, [], raw⟩ rc = .ok "" ∧
    rstRender ⟨f, meta, [], raw⟩ rc = .ok "" ∧
    typRender ⟨f, meta, [], raw⟩ rc = .ok "" ∧
    djRender ⟨f, meta, [], raw⟩ rc = .ok "" ∧
    orgRender ⟨f, meta, [], raw⟩ rc = .ok "" ∧
    ptRender ⟨f, meta, [], raw⟩ rc = .ok "" :=
  ⟨rfl, rfl, rfl, rfl, rfl, rfl⟩

end Formatrix
